import Mathlib

set_option maxRecDepth 100000

/-!
Verification development for the container-chain credit monitor
(`tanssi/tools/mainnets/credit-checker.ts` and `tanssi/tools/utils/notifications.ts`).

The TypeScript source is shallowly embedded:

* JavaScript `number` values flowing through the runway computation are
  modelled by `JsNum`, an idealized IEEE-754 double: exact rational
  arithmetic on finite values plus the special values `inf`, `ninf` and
  `nan` with JavaScript semantics for division by zero, addition and
  comparison.  Rounding of finite doubles is not modelled; none of the
  verified properties depends on it.
* `BigInt` values (free balances, credit counters) are modelled by `ℕ`.
* The blake2b-256 hash used by `parachainTank` is implemented in full
  (RFC 7693), so that the derivation function is executable.
* The stdout report and the Telegram dispatch calls performed by the
  `checkCredits` handler are reified as a list of `Event` values produced
  by a pure fold over the registered para ids; network outcomes of
  `fetch` are supplied by oracles.
-/

/-- Idealized JavaScript number: a finite rational or one of the IEEE
special values produced by the source's divisions. -/
inductive JsNum where
  | nan
  | inf
  | ninf
  | fin (q : ℚ)
deriving DecidableEq, Repr

namespace JsNum

/-- JavaScript division of two finite numbers (`a / b`): ordinary division
when `b ≠ 0`; `a / 0` is `Infinity`, `-Infinity` or `NaN` according to the
sign of `a`. -/
def divQ (a b : ℚ) : JsNum :=
  if b = 0 then
    if a = 0 then nan
    else if 0 < a then inf
    else ninf
  else fin (a / b)

/-- JavaScript addition lifted to the special values. -/
def add : JsNum → JsNum → JsNum
  | nan, _ => nan
  | _, nan => nan
  | inf, ninf => nan
  | ninf, inf => nan
  | inf, _ => inf
  | _, inf => inf
  | ninf, _ => ninf
  | _, ninf => ninf
  | fin a, fin b => fin (a + b)

/-- JavaScript strict `<` against a finite right-hand side: any comparison
involving `NaN` is false, `Infinity < t` is false, `-Infinity < t` is true. -/
def ltQ : JsNum → ℚ → Bool
  | nan, _ => false
  | inf, _ => false
  | ninf, _ => true
  | fin a, t => decide (a < t)

/-- JavaScript strict `<` between two JsNum values. -/
def lt : JsNum → JsNum → Bool
  | nan, _ => false
  | _, nan => false
  | inf, _ => false
  | ninf, ninf => false
  | ninf, _ => true
  | fin _, inf => true
  | fin _, ninf => false
  | fin a, fin b => decide (a < b)

/-- A JsNum is finite when it is a rational value (not `NaN` nor an
infinity). -/
def isFinite : JsNum → Bool
  | fin _ => true
  | _ => false

end JsNum

/-! ### blake2b-256 (RFC 7693), the hash behind `blake2AsU8a(combined, 256)` -/

/-- Wrapping 64-bit addition. -/
def add64 (a b : ℕ) : ℕ := (a + b) % 2 ^ 64

/-- Right rotation by `n` of a 64-bit value already reduced mod `2 ^ 64`. -/
def rotr64 (x n : ℕ) : ℕ := ((x >>> n) ||| (x <<< (64 - n))) % 2 ^ 64

/-- Read slot `i` of a word vector. -/
def lget (v : List ℕ) (i : ℕ) : ℕ := v.getD i 0

/-- Write slot `i` of a word vector. -/
def lset (v : List ℕ) (i x : ℕ) : List ℕ := v.set i x

/-- blake2b initialization vector. -/
def blakeIV : List ℕ :=
  [0x6a09e667f3bcc908, 0xbb67ae8584caa73b, 0x3c6ef372fe94f82b, 0xa54ff53a5f1d36f1,
   0x510e527fade682d1, 0x9b05688c2b3e6c1f, 0x1f83d9abfb41bd6b, 0x5be0cd19137e2179]

/-- blake2b message schedule (10 permutation rows). -/
def blakeSigma : List (List ℕ) :=
  [[0, 1, 2, 3, 4, 5, 6, 7, 8, 9, 10, 11, 12, 13, 14, 15],
   [14, 10, 4, 8, 9, 15, 13, 6, 1, 12, 0, 2, 11, 7, 5, 3],
   [11, 8, 12, 0, 5, 2, 15, 13, 10, 14, 3, 6, 7, 1, 9, 4],
   [7, 9, 3, 1, 13, 12, 11, 14, 2, 6, 5, 10, 4, 0, 15, 8],
   [9, 0, 5, 7, 2, 4, 10, 15, 14, 1, 11, 12, 6, 8, 3, 13],
   [2, 12, 6, 10, 0, 11, 8, 3, 4, 13, 7, 5, 15, 14, 1, 9],
   [12, 5, 1, 15, 14, 13, 4, 10, 0, 7, 6, 3, 9, 2, 8, 11],
   [13, 11, 7, 14, 12, 1, 3, 9, 5, 0, 15, 4, 8, 6, 2, 10],
   [6, 15, 14, 9, 11, 3, 0, 8, 12, 2, 13, 7, 1, 4, 10, 5],
   [10, 2, 8, 4, 7, 6, 1, 5, 15, 11, 9, 14, 3, 12, 13, 0]]

/-- The blake2b G mixing function acting on working-vector slots
`a b c d` with message words `x y`. -/
def gMix (v : List ℕ) (a b c d x y : ℕ) : List ℕ :=
  let va := add64 (add64 (lget v a) (lget v b)) x
  let vd := rotr64 (Nat.xor (lget v d) va) 32
  let vc := add64 (lget v c) vd
  let vb := rotr64 (Nat.xor (lget v b) vc) 24
  let va2 := add64 (add64 va vb) y
  let vd2 := rotr64 (Nat.xor vd va2) 16
  let vc2 := add64 vc vd2
  let vb2 := rotr64 (Nat.xor vb vc2) 63
  (((v.set a va2).set b vb2).set c vc2).set d vd2

/-- One blake2b round: eight G applications with schedule row `s`. -/
def blakeRound (m v s : List ℕ) : List ℕ :=
  let v := gMix v 0 4 8 12 (lget m (lget s 0)) (lget m (lget s 1))
  let v := gMix v 1 5 9 13 (lget m (lget s 2)) (lget m (lget s 3))
  let v := gMix v 2 6 10 14 (lget m (lget s 4)) (lget m (lget s 5))
  let v := gMix v 3 7 11 15 (lget m (lget s 6)) (lget m (lget s 7))
  let v := gMix v 0 5 10 15 (lget m (lget s 8)) (lget m (lget s 9))
  let v := gMix v 1 6 11 12 (lget m (lget s 10)) (lget m (lget s 11))
  let v := gMix v 2 7 8 13 (lget m (lget s 12)) (lget m (lget s 13))
  let v := gMix v 3 4 9 14 (lget m (lget s 14)) (lget m (lget s 15))
  v

/-- blake2b compression function F: `h` the 8-word state, `m` the 16-word
message block, `t` the byte counter, `last` the final-block flag. -/
def blakeCompress (h m : List ℕ) (t : ℕ) (last : Bool) : List ℕ :=
  let v := h ++ blakeIV
  let v := lset v 12 (Nat.xor (lget v 12) (t % 2 ^ 64))
  let v := lset v 13 (Nat.xor (lget v 13) (t / 2 ^ 64 % 2 ^ 64))
  let v := if last then lset v 14 (Nat.xor (lget v 14) (2 ^ 64 - 1)) else v
  let v := (List.range 12).foldl (fun v i => blakeRound m v (blakeSigma.getD (i % 10) [])) v
  (List.range 8).map (fun i => Nat.xor (lget h i) (Nat.xor (lget v i) (lget v (i + 8))))

/-- Little-endian 64-bit word from up to eight bytes (first byte least
significant). -/
def wordFromLEBytes (bs : List ℕ) : ℕ := bs.foldr (fun b acc => acc * 256 + b) 0

/-- The 16 message words of a 128-byte block. -/
def blockWords (block : List ℕ) : List ℕ :=
  (List.range 16).map (fun i => wordFromLEBytes ((block.drop (8 * i)).take 8))

/-- Zero-pad a final partial block to 128 bytes. -/
def padBlock (b : List ℕ) : List ℕ := b ++ List.replicate (128 - b.length) 0

/-- Split a byte string into 128-byte chunks (fuel-indexed helper). -/
def toBlocksAux : ℕ → List ℕ → List (List ℕ)
  | 0, _ => []
  | _, [] => []
  | fuel + 1, l => l.take 128 :: toBlocksAux fuel (l.drop 128)

/-- Split a nonempty byte string into 128-byte chunks. -/
def toBlocks (l : List ℕ) : List (List ℕ) := toBlocksAux (l.length + 1) l

/-- Fold the compression function over the message blocks: every block but
the last is compressed with the running byte offset; the last block is
zero-padded and compressed with the total length and the final flag. -/
def compressSeq (h : List ℕ) : List (List ℕ) → ℕ → ℕ → List ℕ
  | [], _, _ => h
  | [b], _, total => blakeCompress h (blockWords (padBlock b)) total true
  | b :: rest, off, total => compressSeq (blakeCompress h (blockWords b) (off + 128) false) rest (off + 128) total

/-- Initial state for an unkeyed 32-byte digest:
`IV[0] XOR 0x01010000 XOR outlen`. -/
def blakeInit256 : List ℕ := lset blakeIV 0 (Nat.xor (lget blakeIV 0) 0x01010020)

/-- Serialize a 64-bit word to eight little-endian bytes. -/
def wordToLEBytes (w : ℕ) : List ℕ := (List.range 8).map (fun j => w / 256 ^ j % 256)

/-- blake2b with a 256-bit digest over a byte string, the function
`blake2AsU8a(·, 256)` of `@polkadot/util-crypto`. -/
def blake2b256 (msg : List ℕ) : List ℕ :=
  let blocks := if msg.isEmpty then [[]] else toBlocks msg
  let h := compressSeq blakeInit256 blocks 0 msg.length
  (h.take 4).flatMap wordToLEBytes

/-! ### the tank-account derivation (credit-checker.ts lines 9-28) -/

/-- Byte encoding of an ASCII string, the `TextEncoder().encode(...)` of
the source (UTF-8 agrees with the code points on the ASCII tag used). -/
def asciiBytes (s : String) : List ℕ := s.data.map Char.toNat

/-- The fixed domain-separation tag `'modlpy/serpayment'`. -/
def serpaymentTag : List ℕ := asciiBytes "modlpy/serpayment"

/-- The four little-endian bytes of `view.setUint32(0, paraId, true)`:
the bytes of
`paraId` reduced to 32 bits. -/
def u32LE (n : ℕ) : List ℕ :=
  [n % 256, n / 256 % 256, n / 2 ^ 16 % 256, n / 2 ^ 24 % 256]

/-- The function `parachainTank` (credit-checker.ts lines 9-28): blake2b-256 of the
tag concatenated with the little-endian 4-byte para id. -/
def parachainTank (paraId : ℕ) : List ℕ :=
  blake2b256 (serpaymentTag ++ u32LE paraId)

/-- Point-in-time balance read for one tank account
(`accountInfo.data.free` plus the chain's decimals). -/
structure BalanceSnapshot where
  freeBalance : ℕ
  tokenDecimals : ℕ
deriving DecidableEq, Repr

/-- Point-in-time credit read (`servicesPayment.blockProductionCredits`). -/
structure CreditSnapshot where
  blockProductionCredits : ℕ
deriving DecidableEq, Repr

/-- Static per-network cost parameters, `ChainConfig` of
`tools/utils/chain-configs.ts`. -/
structure ChainConfig where
  blocksPerDay : ℚ
  costPerBlock : ℚ
  costCollatorAssignment : ℚ
  alertThresholdDays : ℚ
deriving DecidableEq, Repr

/-- The `tanssi` entry of `CHAIN_CONFIGS`. -/
def tanssiConfig : ChainConfig :=
  { blocksPerDay := 14400
    costPerBlock := 3 / 100
    costCollatorAssignment := 50
    alertThresholdDays := 7 }

/-- Result of the runway computation (credit-checker.ts lines 103-111). -/
structure RunwayResult where
  daysFromCredits : JsNum
  daysFromBalance : JsNum
  totalRemainingDays : JsNum
  isLow : Bool
deriving DecidableEq, Repr

/-- The quantity `BigInt(freeBalance) / decimalsFactor`: truncating BigInt division of
the free balance by `10 ^ decimals` (credit-checker.ts line 105).  On `ℕ`,
`/` is exactly this floor division. -/
def balanceInTokens (b : BalanceSnapshot) : ℕ :=
  b.freeBalance / 10 ^ b.tokenDecimals

/-- The quantity `costPerBlock * blocksPerDay + costCollatorAssignment * 4`
(credit-checker.ts line 106). -/
def dailyCost (c : ChainConfig) : ℚ :=
  c.costPerBlock * c.blocksPerDay + c.costCollatorAssignment * 4

/-- The runway computation of the `checkCredits` handler
(credit-checker.ts lines 103-111): days covered by prepaid credits, days
covered by the truncated token balance, their sum, and the strict
threshold comparison.  `alertThreshold` is `argv.threshold ?? config.alertThresholdDays`. -/
def computeRunway (b : BalanceSnapshot) (cr : CreditSnapshot) (c : ChainConfig)
    (alertThreshold : ℚ) : RunwayResult :=
  let daysFromCredits := JsNum.divQ (cr.blockProductionCredits : ℚ) c.blocksPerDay
  let daysFromBalance := JsNum.divQ (balanceInTokens b : ℚ) (dailyCost c)
  let total := JsNum.add daysFromCredits daysFromBalance
  { daysFromCredits := daysFromCredits
    daysFromBalance := daysFromBalance
    totalRemainingDays := total
    isLow := JsNum.ltQ total alertThreshold }

/-! ### teams, secrets and lookup (`utils/notifications.ts`) -/

/-- One entry of the team directory (`TeamConfig`). -/
structure TeamConfig where
  name : String
  para_id : ℕ
  chat_id : String
deriving DecidableEq, Repr

/-- The credential bundle returned by `loadSecrets` (`SecretsConfig`). -/
structure SecretsConfig where
  telegramBotToken : String
  teams : List TeamConfig
deriving DecidableEq, Repr

/-- An identifier value as it may arrive at `findTeamByParaId`
(`paraId: number | string`). -/
inductive IdVal where
  | num (n : ℕ)
  | str (s : String)
deriving DecidableEq, Repr

/-- The JavaScript `Number(...)` normalization applied by
`findTeamByParaId`: a number is itself; a string parses as a decimal
numeral, anything else is `NaN` (modelled as `none`). -/
def toNumber : IdVal → Option ℕ
  | .num n => some n
  | .str s => s.toNat?

/-- JavaScript `===` on two normalized values, where `NaN` (`none`)
compares unequal to everything including itself. -/
def numEq (a b : Option ℕ) : Bool :=
  match a, b with
  | some x, some y => x == y
  | _, _ => false

/-- The function `findTeamByParaId` (notifications.ts lines 142-148):
`secrets.teams.find(team => Number(team.para_id) === Number(paraId))`. -/
def findTeamByParaId (secrets : SecretsConfig) (paraId : IdVal) : Option TeamConfig :=
  secrets.teams.find? (fun team => numEq (some team.para_id) (toNumber paraId))

/-- Routing decision for one low entity. -/
structure AlertDecision where
  ownerTeam : Option TeamConfig
  broadcastTeams : List TeamConfig
deriving DecidableEq, Repr

/-- The routing step of the `checkCredits` handler (credit-checker.ts
lines 111-128): nothing is computed unless `isLowCredits` holds; when it
does, the owner is `findTeamByParaId(secrets, paraId)` and the broadcast
recipients are `secrets.teams.filter(t => t.para_id === 0)`. -/
def route (isLow : Bool) (secrets : SecretsConfig) (paraId : IdVal) : Option AlertDecision :=
  if isLow then
    some { ownerTeam := findTeamByParaId secrets paraId
           broadcastTeams := secrets.teams.filter (fun t => t.para_id == 0) }
  else none

/-! ### the Telegram dispatcher (`utils/notifications.ts` lines 47-140) -/

/-- Outcome of one `fetch` attempt: an HTTP response whose `ok` flag
records 2xx status, or a transport-level exception (timeout, DNS,
connection reset). -/
inductive FetchOutcome where
  | response (ok : Bool)
  | failure
deriving DecidableEq, Repr

/-- The retry loop of `sendTelegramMessage` (notifications.ts lines
64-131), started at attempt number `attempt`: a response with `ok` yields
`true`; a non-2xx response yields `false` at once; a transport failure
retries while attempts remain and otherwise yields `false`.  Returns the
boolean result together with the number of fetch attempts performed. -/
def sendAttempts (oracle : ℕ → FetchOutcome) (attempts attempt : ℕ) : Bool × ℕ :=
  if h : attempt ≤ attempts then
    match oracle attempt with
    | .response true => (true, attempt)
    | .response false => (false, attempt)
    | .failure =>
      if h2 : attempt < attempts then sendAttempts oracle attempts (attempt + 1)
      else (false, attempt)
  else (false, attempt - 1)
termination_by attempts + 1 - attempt
decreasing_by omega

/-- The function `sendTelegramMessage` with its attempt counter starting at 1;
`attempts` is `TELEGRAM_FETCH_ATTEMPTS ?? 5`.  The fetch outcomes are
supplied by `oracle`, indexed by attempt number. -/
def sendTelegramMessage (oracle : ℕ → FetchOutcome) (attempts : ℕ) : Bool × ℕ :=
  sendAttempts oracle attempts 1

/-! ### the monitor loop (`checkCredits` handler, credit-checker.ts lines 79-180) -/

/-- Qualifier appended to the broadcast message (credit-checker.ts lines
159-164). -/
inductive Qualifier where
  | plain
  | noTeam
  | failedNotify (teamName : String)
deriving DecidableEq, Repr

/-- Structured content of the broadcast alert (credit-checker.ts lines
154-164): network and id, the owning team's name when present
(`teamNameInfo`), the runway figure, and the appended qualifier. -/
structure BroadcastMsg where
  networkName : String
  paraId : ℕ
  ownerName : Option String
  remainingDays : JsNum
  qualifier : Qualifier
deriving DecidableEq, Repr

/-- Structured content of the personalized owner alert
(credit-checker.ts lines 135-138). -/
structure OwnerMsg where
  networkName : String
  paraId : ℕ
  remainingDays : JsNum
deriving DecidableEq, Repr

/-- A message handed to `sendTelegramMessage` by the handler. -/
inductive Message where
  | owner (m : OwnerMsg)
  | broadcast (m : BroadcastMsg)
deriving DecidableEq, Repr

/-- Composition of the broadcast message (credit-checker.ts lines
153-164): the owner name rides along when the owner was found, and the
qualifier records `teamNotFound` or `teamNotificationFailed && team`. -/
def composeBroadcast (networkName : String) (paraId : ℕ) (team : Option TeamConfig)
    (teamNotFound teamNotificationFailed : Bool) (days : JsNum) : BroadcastMsg :=
  { networkName := networkName
    paraId := paraId
    ownerName := team.map TeamConfig.name
    remainingDays := days
    qualifier :=
      if teamNotFound then .noTeam
      else
        match team, teamNotificationFailed with
        | some t, true => .failedNotify t.name
        | _, _ => .plain }

/-- One observable step of the `checkCredits` handler: a stdout report
line or a `sendTelegramMessage` call together with its boolean result. -/
inductive Event where
  | paraReport (paraId : ℕ) (alert : Bool)
  | addressLine (paraId : ℕ)
  | balanceLine (whole : ℕ) (remainder : ℕ)
  | creditsLine (credits : ℕ)
  | remainingLine (days : JsNum)
  | warnLine (threshold : ℚ)
  | noTeamLine (paraId : ℕ)
  | notifSentLine (teamName : String)
  | notifFailedLine (teamName : String)
  | sendCall (chatId : String) (msg : Message) (ok : Bool)
  | blankLine
  | noChainsLine
  | doneLine
deriving DecidableEq, Repr

/-- Events that exist only on the notification path: the dispatch calls
themselves and the sent/failed/no-team diagnostic lines. -/
def Event.isNotif : Event → Bool
  | .noTeamLine _ => true
  | .notifSentLine _ => true
  | .notifFailedLine _ => true
  | .sendCall _ _ _ => true
  | _ => false

/-- The broadcast fan-out (credit-checker.ts lines 166-173): one send per
broadcast team in stored order, logging success or failure of each and
never stopping early.  `k` numbers the send calls; `oracle k` is the
boolean outcome of the k-th `sendTelegramMessage` call of the run. -/
def broadcastSends (msg : BroadcastMsg) (teams : List TeamConfig) (oracle : ℕ → Bool)
    (k : ℕ) : List Event × ℕ :=
  match teams with
  | [] => ([], k)
  | t :: rest =>
    let ok := oracle k
    (Event.sendCall t.chat_id (Message.broadcast msg) ok ::
       (if ok then Event.notifSentLine t.name else Event.notifFailedLine t.name) ::
       (broadcastSends msg rest oracle (k + 1)).1,
     (broadcastSends msg rest oracle (k + 1)).2)

/-- One iteration of the per-entity loop (credit-checker.ts lines
79-178): report lines, then — when the runway is low and secrets are
present — the owner dispatch and the broadcast fan-out.  Returns the
events together with the advanced send counter. -/
def processEntity (networkName : String) (c : ChainConfig) (th : ℚ) (decimals : ℕ)
    (secrets : Option SecretsConfig) (oracle : ℕ → Bool)
    (k paraId freeBalance credits : ℕ) : List Event × ℕ :=
  let r := computeRunway ⟨freeBalance, decimals⟩ ⟨credits⟩ c th
  let report := [Event.paraReport paraId r.isLow, Event.addressLine paraId,
                 Event.balanceLine (freeBalance / 10 ^ decimals) (freeBalance % 10 ^ decimals),
                 Event.creditsLine credits,
                 Event.remainingLine r.totalRemainingDays]
  if r.isLow then
    match secrets with
    | none => (report ++ [Event.warnLine th, Event.blankLine], k)
    | some s =>
      let broadcastTeams := s.teams.filter (fun t => t.para_id == 0)
      match findTeamByParaId s (IdVal.num paraId) with
      | some t =>
        let ok := oracle k
        let msg := composeBroadcast networkName paraId (some t) false (!ok) r.totalRemainingDays
        let bres := broadcastSends msg broadcastTeams oracle (k + 1)
        (report ++ [Event.warnLine th,
            Event.sendCall t.chat_id (Message.owner ⟨networkName, paraId, r.totalRemainingDays⟩) ok,
            if ok then Event.notifSentLine t.name else Event.notifFailedLine t.name] ++
          bres.1 ++ [Event.blankLine], bres.2)
      | none =>
        let msg := composeBroadcast networkName paraId none true false r.totalRemainingDays
        let bres := broadcastSends msg broadcastTeams oracle k
        (report ++ [Event.warnLine th, Event.noTeamLine paraId] ++
          bres.1 ++ [Event.blankLine], bres.2)
  else (report ++ [Event.blankLine], k)

/-- The per-entity loop over the registered para ids (each entity given
as `(paraId, freeBalance, credits)` as read from the data source),
credit-checker.ts lines 79-178. -/
def runEntities (networkName : String) (c : ChainConfig) (th : ℚ) (decimals : ℕ)
    (secrets : Option SecretsConfig) (oracle : ℕ → Bool) :
    List (ℕ × ℕ × ℕ) → ℕ → List Event
  | [], _ => []
  | (paraId, bal, cr) :: rest, k =>
    let res := processEntity networkName c th decimals secrets oracle k paraId bal cr
    res.1 ++ runEntities networkName c th decimals secrets oracle rest res.2

/-- The observable behaviour of one `checkCredits` run over the listed
entities: with no registered container chain the handler returns early
with the no-chains notice and never reaches the `Done` line
(credit-checker.ts lines 69-72); otherwise the per-entity loop is
followed by the closing `Done` line (line 180).  Informational header
lines printed before this branch are not reified. -/
def checkCredits (networkName : String) (c : ChainConfig) (th : ℚ) (decimals : ℕ)
    (secrets : Option SecretsConfig) (oracle : ℕ → Bool)
    (entities : List (ℕ × ℕ × ℕ)) : List Event :=
  if entities.isEmpty then [Event.noChainsLine]
  else runEntities networkName c th decimals secrets oracle entities 0 ++ [Event.doneLine]

/-- Number of entities reported below threshold in a run's output. -/
def lowCount (evts : List Event) : ℕ :=
  (evts.filter (fun e => match e with | .paraReport _ true => true | _ => false)).length

/-- Number of per-entity report headers in a run's output. -/
def paraReportCount (evts : List Event) : ℕ :=
  (evts.filter (fun e => match e with | .paraReport _ _ => true | _ => false)).length

/-- The chat ids targeted by the dispatch calls of a run, in call order. -/
def sendTargets (evts : List Event) : List String :=
  evts.filterMap (fun e => match e with | .sendCall cid _ _ => some cid | _ => none)

/-! ## Theorems -/

example : blake2b256 (asciiBytes "abc") =
    [189, 221, 129, 60, 99, 66, 57, 114, 49, 113, 239, 63, 238, 152, 87, 155,
     148, 150, 78, 59, 177, 203, 62, 66, 114, 98, 200, 192, 104, 213, 35, 25] := by decide

example : parachainTank 0 =
    [191, 25, 130, 108, 45, 109, 122, 223, 45, 56, 30, 143, 157, 1, 211, 71,
     12, 48, 50, 31, 32, 250, 5, 86, 136, 114, 25, 74, 73, 163, 17, 103] := by decide

example : parachainTank 1 =
    [15, 143, 164, 110, 100, 1, 190, 5, 194, 117, 238, 71, 38, 137, 100, 136,
     30, 189, 230, 193, 228, 66, 130, 173, 150, 15, 202, 67, 28, 25, 22, 250] := by decide

example :
    (computeRunway ⟨10 ^ 12, 12⟩ ⟨0⟩ tanssiConfig 7).isLow = true := by
  norm_num [computeRunway, balanceInTokens, dailyCost, tanssiConfig, JsNum.divQ,
    JsNum.add, JsNum.ltQ]

example :
    (computeRunway ⟨10 ^ 12, 12⟩ ⟨200000⟩ tanssiConfig 7).isLow = false := by
  norm_num [computeRunway, balanceInTokens, dailyCost, tanssiConfig, JsNum.divQ,
    JsNum.add, JsNum.ltQ]

/-! ### C1: the tank-account derivation -/

/-- The compression function always returns an 8-word state. -/
theorem blakeCompress_length (h m : List ℕ) (t : ℕ) (last : Bool) :
    (blakeCompress h m t last).length = 8 := by
  simp [blakeCompress]

/-- Folding the compression function over a nonempty block list yields an
8-word state. -/
theorem compressSeq_length (blocks : List (List ℕ)) :
    ∀ h off total, blocks ≠ [] → (compressSeq h blocks off total).length = 8 := by
  induction blocks with
  | nil => intro h off total hne; exact absurd rfl hne
  | cons b rest ih =>
    intro h off total _
    cases rest with
    | nil => simp [compressSeq, blakeCompress_length]
    | cons c cs => simpa [compressSeq] using ih _ _ _ (by simp)

/-- Chunking a nonempty byte string yields at least one block. -/
theorem toBlocks_ne_nil (l : List ℕ) (h : l ≠ []) : toBlocks l ≠ [] := by
  cases l with
  | nil => exact absurd rfl h
  | cons a t => simp [toBlocks, toBlocksAux]

/-- Each serialized word contributes eight bytes. -/
theorem flatMap_wordToLEBytes_length (l : List ℕ) :
    (l.flatMap wordToLEBytes).length = 8 * l.length := by
  induction l with
  | nil => simp
  | cons a t ih => simp [wordToLEBytes, ih]; omega

/-- The digest of `blake2b256` is exactly 32 bytes long, for every
message. -/
theorem blake2b256_length (msg : List ℕ) : (blake2b256 msg).length = 32 := by
  have key : ∀ blocks : List (List ℕ), blocks ≠ [] →
      (((compressSeq blakeInit256 blocks 0 msg.length).take 4).flatMap wordToLEBytes).length
        = 32 := by
    intro blocks hne
    have h8 := compressSeq_length blocks blakeInit256 0 msg.length hne
    rw [flatMap_wordToLEBytes_length, List.length_take, h8]
    omega
  unfold blake2b256
  by_cases hne : msg = []
  · subst hne
    simpa using key [[]] (by simp)
  · have hE : msg.isEmpty = false := by
      cases msg with
      | nil => exact absurd rfl hne
      | cons a t => rfl
    rw [hE]
    simpa using key (toBlocks msg) (toBlocks_ne_nil msg hne)

/-- C1: `parachainTank` is blake2b-256 of the fixed ASCII tag
`'modlpy/serpayment'` followed by the 4-byte little-endian encoding of the
entity id; the result is exactly the 32-byte digest with no truncation or
further derivation; the derivation is total and deterministic; and ids 0
and 1 derive distinct fingerprints. -/
theorem parachainTank_correct (a b : ℕ) :
    parachainTank a = blake2b256 (asciiBytes "modlpy/serpayment" ++ u32LE a) ∧
    (parachainTank a).length = 32 ∧
    (a = b → parachainTank a = parachainTank b) ∧
    parachainTank 0 ≠ parachainTank 1 :=
  ⟨rfl, blake2b256_length _, fun h => by rw [h], by decide⟩

/-- C1 witness at concrete ids. -/
theorem parachainTank_correct_witness :
    parachainTank 0 = parachainTank 0 ∧
    (parachainTank 0).length = 32 ∧
    parachainTank 0 ≠ parachainTank 1 :=
  ⟨(parachainTank_correct 0 0).2.2.1 rfl, (parachainTank_correct 0 1).2.1,
   (parachainTank_correct 0 1).2.2.2⟩

/-! ### C2, C6, C8: the runway computation -/

/-- C2: with a positive block rate and a positive daily cost, the runway
record carries exactly the spec's formulas — credits divided by the daily
block rate, the floor-truncated whole-token balance divided by
`costPerBlock * blocksPerDay + costCollatorAssignment * 4`, their sum —
and `isLow` holds iff the total is strictly below the threshold, so that
exact equality with the threshold does not alert. -/
theorem computeRunway_spec (b : BalanceSnapshot) (cr : CreditSnapshot) (c : ChainConfig)
    (th : ℚ) (hbpd : 0 < c.blocksPerDay) (hdc : 0 < dailyCost c) :
    dailyCost c = c.costPerBlock * c.blocksPerDay + c.costCollatorAssignment * 4 ∧
    ⌊(b.freeBalance : ℚ) / ((10 : ℚ) ^ b.tokenDecimals)⌋₊ = balanceInTokens b ∧
    (computeRunway b cr c th).daysFromCredits
      = .fin ((cr.blockProductionCredits : ℚ) / c.blocksPerDay) ∧
    (computeRunway b cr c th).daysFromBalance
      = .fin ((balanceInTokens b : ℚ) / dailyCost c) ∧
    (computeRunway b cr c th).totalRemainingDays
      = .fin ((cr.blockProductionCredits : ℚ) / c.blocksPerDay
              + (balanceInTokens b : ℚ) / dailyCost c) ∧
    ((computeRunway b cr c th).isLow = true ↔
      (cr.blockProductionCredits : ℚ) / c.blocksPerDay
        + (balanceInTokens b : ℚ) / dailyCost c < th) ∧
    ((cr.blockProductionCredits : ℚ) / c.blocksPerDay
        + (balanceInTokens b : ℚ) / dailyCost c = th →
      (computeRunway b cr c th).isLow = false) := by
  refine ⟨rfl, ?_, ?_, ?_, ?_, ?_, ?_⟩
  · rw [show ((10 : ℚ) ^ b.tokenDecimals) = ((10 ^ b.tokenDecimals : ℕ) : ℚ) by push_cast; ring,
      Nat.floor_div_nat]
    rfl
  · simp [computeRunway, JsNum.divQ, hbpd.ne']
  · simp [computeRunway, JsNum.divQ, hbpd.ne', hdc.ne']
  · simp [computeRunway, JsNum.divQ, JsNum.add, hbpd.ne', hdc.ne']
  · simp [computeRunway, JsNum.divQ, JsNum.add, JsNum.ltQ, hbpd.ne', hdc.ne']
  · intro heq
    simp [computeRunway, JsNum.divQ, JsNum.add, JsNum.ltQ, hbpd.ne', hdc.ne', heq]

/-- C2 witness: scenario with one whole token, zero credits, the `tanssi`
configuration and its daily cost of 632. -/
theorem computeRunway_spec_witness :
    (computeRunway ⟨10 ^ 12, 12⟩ ⟨0⟩ tanssiConfig 7).daysFromBalance
      = .fin ((balanceInTokens ⟨10 ^ 12, 12⟩ : ℚ) / dailyCost tanssiConfig) :=
  (computeRunway_spec ⟨10 ^ 12, 12⟩ ⟨0⟩ tanssiConfig 7 (by norm_num [tanssiConfig])
    (by norm_num [dailyCost, tanssiConfig])).2.2.2.1

/-- C6 (amended): when the daily cost is zero the computation still never
alerts — `isLow` is false — and the remaining-days value is non-finite;
but when the truncated balance is also zero that value is `NaN`, which the
per-entity report line then carries. -/
theorem computeRunway_zeroDailyCost (b : BalanceSnapshot) (cr : CreditSnapshot)
    (c : ChainConfig) (th : ℚ) (h : dailyCost c = 0) :
    (computeRunway b cr c th).isLow = false ∧
    (computeRunway b cr c th).totalRemainingDays.isFinite = false ∧
    (balanceInTokens b = 0 → (computeRunway b cr c th).totalRemainingDays = .nan) := by
  rcases Nat.eq_zero_or_pos (balanceInTokens b) with h0 | hp
  · have hy : JsNum.divQ ((balanceInTokens b : ℚ)) (dailyCost c) = .nan := by
      simp [JsNum.divQ, h, h0]
    cases hA : JsNum.divQ ((cr.blockProductionCredits : ℚ)) c.blocksPerDay <;>
      simp [computeRunway, hy, hA, JsNum.add, JsNum.ltQ, JsNum.isFinite]
  · have hbpos : (0 : ℚ) < (balanceInTokens b : ℚ) := by exact_mod_cast hp
    have hy : JsNum.divQ ((balanceInTokens b : ℚ)) (dailyCost c) = .inf := by
      simp [JsNum.divQ, h, hbpos, hbpos.ne']
    cases hA : JsNum.divQ ((cr.blockProductionCredits : ℚ)) c.blocksPerDay <;>
      simp [computeRunway, hy, hA, JsNum.add, JsNum.ltQ, JsNum.isFinite, hp.ne']

/-- C6 witness at a zero-cost configuration with a zero balance. -/
theorem computeRunway_zeroDailyCost_witness :
    (computeRunway ⟨0, 12⟩ ⟨5⟩ ⟨1, 0, 0, 7⟩ 7).isLow = false ∧
    (computeRunway ⟨0, 12⟩ ⟨5⟩ ⟨1, 0, 0, 7⟩ 7).totalRemainingDays.isFinite = false ∧
    (balanceInTokens ⟨0, 12⟩ = 0 →
      (computeRunway ⟨0, 12⟩ ⟨5⟩ ⟨1, 0, 0, 7⟩ 7).totalRemainingDays = .nan) :=
  computeRunway_zeroDailyCost ⟨0, 12⟩ ⟨5⟩ ⟨1, 0, 0, 7⟩ 7 (by norm_num [dailyCost])

/-- C6 counterexample: with a zero daily cost and a balance truncating to
zero whole tokens, the remaining-days value is `NaN` and the per-entity
report line of the run displays it. -/
theorem nan_in_report_counterexample :
    dailyCost ⟨1, 0, 0, 7⟩ = 0 ∧
    Event.remainingLine JsNum.nan ∈
      checkCredits "tanssi" ⟨1, 0, 0, 7⟩ 7 12 none (fun _ => true) [(42, 0, 5)] := by
  constructor
  · norm_num [dailyCost]
  · norm_num [checkCredits, runEntities, processEntity, computeRunway, balanceInTokens,
      dailyCost, JsNum.divQ, JsNum.add, JsNum.ltQ]

/-- C8 counterexample: with a zero daily cost (balance runway Infinity),
strictly increasing the credits does not strictly increase the total —
both totals are Infinity and the strict comparison is false. -/
theorem monotone_counterexample :
    (0 : ℕ) < 1 ∧
    JsNum.lt (computeRunway ⟨10 ^ 12, 12⟩ ⟨0⟩ ⟨14400, 0, 0, 7⟩ 7).totalRemainingDays
      (computeRunway ⟨10 ^ 12, 12⟩ ⟨1⟩ ⟨14400, 0, 0, 7⟩ 7).totalRemainingDays = false := by
  refine ⟨by norm_num, ?_⟩
  norm_num [computeRunway, balanceInTokens, dailyCost, JsNum.divQ, JsNum.add, JsNum.lt]

/-- C8 (amended): with a positive block rate and a nonzero daily cost,
strictly increasing the credits strictly increases the total remaining
days; and — unconditionally, for every cost configuration — raising the
alert threshold with a fixed runway can only turn `isLow` from false to
true, never from true to false. -/
theorem computeRunway_monotone (b : BalanceSnapshot) (cr : CreditSnapshot) (c : ChainConfig)
    (th t1 t2 : ℚ) (c1 c2 : ℕ) (hc : c1 < c2) (ht : t1 < t2) :
    (0 < c.blocksPerDay → dailyCost c ≠ 0 →
      JsNum.lt (computeRunway b ⟨c1⟩ c th).totalRemainingDays
        (computeRunway b ⟨c2⟩ c th).totalRemainingDays = true) ∧
    ((computeRunway b cr c t1).isLow = true → (computeRunway b cr c t2).isLow = true) := by
  constructor
  · intro hbpd hdc
    have h1 : (c1 : ℚ) / c.blocksPerDay < (c2 : ℚ) / c.blocksPerDay :=
      div_lt_div_of_pos_right (by exact_mod_cast hc) hbpd
    simp [computeRunway, JsNum.divQ, JsNum.add, JsNum.lt, hbpd.ne', hdc]
    exact h1
  · intro hl
    have hl2 : JsNum.ltQ ((computeRunway b cr c t1).totalRemainingDays) t1 = true := hl
    show JsNum.ltQ ((computeRunway b cr c t2).totalRemainingDays) t2 = true
    have hsame : (computeRunway b cr c t2).totalRemainingDays
        = (computeRunway b cr c t1).totalRemainingDays := rfl
    rw [hsame]
    rcases hT : (computeRunway b cr c t1).totalRemainingDays with _ | _ | _ | q
    · rw [hT] at hl2; simp [JsNum.ltQ] at hl2
    · rw [hT] at hl2; simp [JsNum.ltQ] at hl2
    · simp [JsNum.ltQ]
    · rw [hT] at hl2
      simp [JsNum.ltQ] at hl2 ⊢
      exact hl2.trans ht

/-- C8 witness: strict credit monotonicity at the `tanssi` configuration,
and the threshold direction at a zero-daily-cost configuration where the
first conjunct's hypotheses fail. -/
theorem computeRunway_monotone_witness :
    JsNum.lt (computeRunway ⟨0, 12⟩ ⟨0⟩ tanssiConfig 7).totalRemainingDays
      (computeRunway ⟨0, 12⟩ ⟨1⟩ tanssiConfig 7).totalRemainingDays = true ∧
    ((computeRunway ⟨10 ^ 12, 12⟩ ⟨0⟩ ⟨14400, 0, 0, 7⟩ 7).isLow = true →
      (computeRunway ⟨10 ^ 12, 12⟩ ⟨0⟩ ⟨14400, 0, 0, 7⟩ 8).isLow = true) :=
  ⟨(computeRunway_monotone ⟨0, 12⟩ ⟨0⟩ tanssiConfig 7 7 8 0 1 (by norm_num)
      (by norm_num)).1 (by norm_num [tanssiConfig]) (by norm_num [dailyCost, tanssiConfig]),
   (computeRunway_monotone ⟨10 ^ 12, 12⟩ ⟨0⟩ ⟨14400, 0, 0, 7⟩ 7 7 8 0 1 (by norm_num)
      (by norm_num)).2⟩

/-! ### C5, C10: routing and team lookup -/

/-- C10: `findTeamByParaId` returns the first team matching the
normalized id in stored order (even with duplicate matches later in the
list), and absent on an empty team list. -/
theorem findTeamByParaId_first (tok : String) (l1 : List TeamConfig) (t : TeamConfig)
    (l2 : List TeamConfig) (paraId : IdVal)
    (hmatch : numEq (some t.para_id) (toNumber paraId) = true)
    (hbefore : ∀ u ∈ l1, numEq (some u.para_id) (toNumber paraId) = false) :
    findTeamByParaId ⟨tok, l1 ++ t :: l2⟩ paraId = some t ∧
    ∀ pid, findTeamByParaId ⟨tok, []⟩ pid = none := by
  constructor
  · have aux : ∀ l : List TeamConfig,
        (∀ u ∈ l, numEq (some u.para_id) (toNumber paraId) = false) →
        List.find? (fun team => numEq (some team.para_id) (toNumber paraId)) (l ++ t :: l2)
          = some t := by
      intro l
      induction l with
      | nil => intro _; simp [List.find?_cons_of_pos, hmatch]
      | cons a rest ih =>
        intro hb
        rw [List.cons_append, List.find?_cons_of_neg]
        · exact ih fun u hu => hb u (List.mem_cons_of_mem _ hu)
        · simp [hb a (List.mem_cons_self _ _)]
    exact aux l1 hbefore
  · intro pid; rfl

/-- C10 witness: two matching teams, the first in stored order wins; the
empty directory yields absent. -/
theorem findTeamByParaId_first_witness :
    findTeamByParaId ⟨"tok", [⟨"X", 7, "cx"⟩] ++ ⟨"A", 42, "ca"⟩ :: [⟨"B", 42, "cb"⟩]⟩
        (IdVal.num 42) = some ⟨"A", 42, "ca"⟩ ∧
    findTeamByParaId ⟨"tok", []⟩ (IdVal.num 0) = none :=
  ⟨(findTeamByParaId_first "tok" [⟨"X", 7, "cx"⟩] ⟨"A", 42, "ca"⟩ [⟨"B", 42, "cb"⟩]
      (IdVal.num 42) (by decide) (by decide)).1,
   (findTeamByParaId_first "tok" [⟨"X", 7, "cx"⟩] ⟨"A", 42, "ca"⟩ [⟨"B", 42, "cb"⟩]
      (IdVal.num 42) (by decide) (by decide)).2 (IdVal.num 0)⟩

/-- C5: the routing step composes nothing whenever `isLow` is false (for
every team configuration, the empty one included); when `isLow` holds the
owner is the first team whose normalized `para_id` equals the normalized
entity id (absent when no team matches), and the broadcast recipients are
exactly the teams with the sentinel `para_id = 0`, in stored order,
independent of the owner lookup. -/
theorem route_spec (isLow : Bool) (secrets : SecretsConfig) (paraId : IdVal) :
    (route isLow secrets paraId = none ↔ isLow = false) ∧
    (isLow = true → ∃ d, route isLow secrets paraId = some d ∧
      d.ownerTeam = findTeamByParaId secrets paraId ∧
      (d.ownerTeam = none ↔ ∀ t ∈ secrets.teams,
        numEq (some t.para_id) (toNumber paraId) = false) ∧
      (∀ t, d.ownerTeam = some t → t ∈ secrets.teams ∧
        numEq (some t.para_id) (toNumber paraId) = true) ∧
      List.Sublist d.broadcastTeams secrets.teams ∧
      (∀ t, t ∈ d.broadcastTeams ↔ t ∈ secrets.teams ∧ t.para_id = 0)) := by
  constructor
  · cases isLow <;> simp [route]
  · intro h
    subst h
    refine ⟨_, rfl, rfl, ?_, ?_, ?_, ?_⟩
    · simp [findTeamByParaId, List.find?_eq_none]
    · intro t ht
      have ht2 : List.find? (fun team => numEq (some team.para_id) (toNumber paraId))
          secrets.teams = some t := ht
      refine ⟨List.mem_of_find?_eq_some ht2, ?_⟩
      simpa using List.find?_some ht2
    · exact List.filter_sublist _
    · intro t
      simp [List.mem_filter]

/-- C5 witness: a quiet entity routes to nothing even with a broadcast
team configured; a low entity routes to a decision. -/
theorem route_spec_witness :
    route false ⟨"b", [⟨"Ops", 0, "c0"⟩]⟩ (IdVal.num 42) = none ∧
    route true ⟨"b", [⟨"Ops", 0, "c0"⟩]⟩ (IdVal.num 42) ≠ none := by
  constructor
  · exact (route_spec false ⟨"b", [⟨"Ops", 0, "c0"⟩]⟩ (IdVal.num 42)).1.mpr rfl
  · obtain ⟨d, hd, -⟩ := (route_spec true ⟨"b", [⟨"Ops", 0, "c0"⟩]⟩ (IdVal.num 42)).2 rfl
    simp [hd]

/-! ### C3: the dispatcher's retry discipline -/

/-- Starting anywhere at or below the final successful attempt, a run of
transport failures followed by a 2xx response returns true at that
attempt. -/
theorem sendAttempts_succeed (oracle : ℕ → FetchOutcome) (attempts N : ℕ)
    (hN : N ≤ attempts) (hok : oracle N = .response true) :
    ∀ d a, N = a + d → (∀ k, a ≤ k → k < N → oracle k = .failure) →
      sendAttempts oracle attempts a = (true, N) := by
  intro d
  induction d with
  | zero =>
    intro a ha _
    have haN : a = N := by omega
    subst haN
    unfold sendAttempts
    simp [hN, hok]
  | succ d ih =>
    intro a ha hfail
    have h1 : a ≤ attempts := by omega
    have h2 : a < attempts := by omega
    have hf : oracle a = .failure := hfail a le_rfl (by omega)
    unfold sendAttempts
    simp only [h1, dif_pos, hf]
    rw [dif_pos h2]
    exact ih (a + 1) (by omega) fun k hk1 hk2 => hfail k (by omega) hk2

/-- When every attempt fails at the transport level, the loop runs to the
configured attempt count and returns false. -/
theorem sendAttempts_exhaust (oracle : ℕ → FetchOutcome) (attempts : ℕ)
    (hfail : ∀ k, oracle k = .failure) :
    ∀ d a, attempts = a + d → 1 ≤ a → sendAttempts oracle attempts a = (false, attempts) := by
  intro d
  induction d with
  | zero =>
    intro a ha _
    have haN : a = attempts := by omega
    subst haN
    unfold sendAttempts
    simp [hfail a]
  | succ d ih =>
    intro a ha h1
    have hle : a ≤ attempts := by omega
    have hlt : a < attempts := by omega
    unfold sendAttempts
    simp only [hle, dif_pos, hfail a]
    rw [dif_pos hlt]
    exact ih (a + 1) (by omega) (by omega)

/-- C3: the dispatcher always terminates with a boolean; a non-2xx
response on the first attempt returns false after exactly that one
attempt with no retry; transport failures on the first `N - 1` attempts
followed by a 2xx response on attempt `N ≤ attempts` return true after
exactly `N` attempts; and when every attempt fails at the transport level
the loop performs exactly the configured number of attempts (default 5)
and returns false. -/
theorem sendTelegramMessage_spec (oracle : ℕ → FetchOutcome) (attempts N : ℕ)
    (hatt : 1 ≤ attempts) (hN1 : 1 ≤ N) (hNatt : N ≤ attempts) :
    (oracle 1 = .response false → sendTelegramMessage oracle attempts = (false, 1)) ∧
    ((∀ k, 1 ≤ k → k < N → oracle k = .failure) → oracle N = .response true →
      sendTelegramMessage oracle attempts = (true, N)) ∧
    ((∀ k, oracle k = .failure) → sendTelegramMessage oracle attempts = (false, attempts)) := by
  refine ⟨?_, ?_, ?_⟩
  · intro h1
    unfold sendTelegramMessage sendAttempts
    simp [hatt, h1]
  · intro hfail hok
    exact sendAttempts_succeed oracle attempts N hNatt hok (N - 1) 1 (by omega)
      fun k hk1 hk2 => hfail k hk1 hk2
  · intro hfail
    exact sendAttempts_exhaust oracle attempts hfail (attempts - 1) 1 (by omega) le_rfl

/-- C3 witness: two transport failures then success gives true in three
attempts; an immediate rejection gives false after one attempt; constant
transport failure exhausts the default five attempts. -/
theorem sendTelegramMessage_spec_witness :
    sendTelegramMessage (fun k => if k < 3 then .failure else .response true) 5 = (true, 3) ∧
    sendTelegramMessage (fun _ => .response false) 5 = (false, 1) ∧
    sendTelegramMessage (fun _ => .failure) 5 = (false, 5) := by
  refine ⟨?_, ?_, ?_⟩
  · exact (sendTelegramMessage_spec (fun k => if k < 3 then .failure else .response true) 5 3
      (by decide) (by decide) (by decide)).2.1
      (fun k _ hk2 => by simp [hk2]) (by simp)
  · exact (sendTelegramMessage_spec (fun _ => .response false) 5 1
      (by decide) (by decide) (by decide)).1 rfl
  · exact (sendTelegramMessage_spec (fun _ => .failure) 5 1
      (by decide) (by decide) (by decide)).2.2 fun _ => rfl

/-! ### C4, C7, C9: the monitor loop -/

/-- Every event emitted by the broadcast fan-out is a notification
event. -/
theorem broadcastSends_all_notif (msg : BroadcastMsg) (teams : List TeamConfig)
    (oracle : ℕ → Bool) : ∀ k, ∀ e ∈ (broadcastSends msg teams oracle k).1,
      e.isNotif = true := by
  induction teams with
  | nil => intro k e he; simp [broadcastSends] at he
  | cons t rest ih =>
    intro k e he
    simp only [broadcastSends, List.mem_cons] at he
    rcases he with rfl | rfl | he
    · rfl
    · cases oracle k <;> simp [Event.isNotif]
    · exact ih (k + 1) e he

/-- The broadcast fan-out contributes nothing to the non-notification
part of the output. -/
theorem broadcastSends_filter_notif (msg : BroadcastMsg) (teams : List TeamConfig)
    (oracle : ℕ → Bool) (k : ℕ) :
    (broadcastSends msg teams oracle k).1.filter (fun e => !e.isNotif) = [] := by
  rw [List.filter_eq_nil_iff]
  intro e he
  simp [broadcastSends_all_notif msg teams oracle k e he]

/-- The broadcast fan-out emits no per-entity report header. -/
theorem broadcastSends_no_report (msg : BroadcastMsg) (teams : List TeamConfig)
    (oracle : ℕ → Bool) (k : ℕ) :
    (broadcastSends msg teams oracle k).1.filter
      (fun e => match e with | Event.paraReport _ _ => true | _ => false) = [] := by
  rw [List.filter_eq_nil_iff]
  intro e he
  have h := broadcastSends_all_notif msg teams oracle k e he
  cases e <;> simp_all [Event.isNotif]

/-- The broadcast fan-out dispatches to exactly the listed teams, in
stored order, whatever the outcomes of the individual sends. -/
theorem broadcastSends_targets (msg : BroadcastMsg) (teams : List TeamConfig)
    (oracle : ℕ → Bool) : ∀ k,
    sendTargets (broadcastSends msg teams oracle k).1 = teams.map TeamConfig.chat_id := by
  induction teams with
  | nil => intro k; simp [broadcastSends, sendTargets]
  | cons t rest ih =>
    intro k
    cases hok : oracle k <;>
      simp [broadcastSends, sendTargets, List.filterMap_cons, hok] <;>
      simpa [sendTargets] using ih (k + 1)

/-- With no secrets, an entity advances the send counter by nothing. -/
theorem processEntity_none_counter (n : String) (c : ChainConfig) (th : ℚ) (d : ℕ)
    (oracle : ℕ → Bool) (k pid bal cr : ℕ) :
    (processEntity n c th d none oracle k pid bal cr).2 = k := by
  unfold processEntity
  cases hlow : (computeRunway ⟨bal, d⟩ ⟨cr⟩ c th).isLow <;> simp [hlow]

/-- With no secrets, an entity emits no notification event. -/
theorem processEntity_none_notif (n : String) (c : ChainConfig) (th : ℚ) (d : ℕ)
    (oracle : ℕ → Bool) (k pid bal cr : ℕ) :
    (processEntity n c th d none oracle k pid bal cr).1.filter (fun e => e.isNotif) = [] := by
  unfold processEntity
  cases hlow : (computeRunway ⟨bal, d⟩ ⟨cr⟩ c th).isLow <;> simp [hlow, Event.isNotif]

/-- The report-only run of one entity is exactly the notification-free
part of the full run of that entity, for any send counters and
outcomes. -/
theorem processEntity_none_filter (n : String) (c : ChainConfig) (th : ℚ) (d : ℕ)
    (o1 o2 : ℕ → Bool) (k1 k2 pid bal cr : ℕ) (s : SecretsConfig) :
    (processEntity n c th d none o1 k1 pid bal cr).1
      = (processEntity n c th d (some s) o2 k2 pid bal cr).1.filter (fun e => !e.isNotif) := by
  unfold processEntity
  cases hlow : (computeRunway ⟨bal, d⟩ ⟨cr⟩ c th).isLow
  · simp [hlow, Event.isNotif]
  · cases hfind : findTeamByParaId s (IdVal.num pid) with
    | none =>
      simp [hlow, hfind, Event.isNotif, List.filter_append]
      intro a ha
      simpa [Event.isNotif] using broadcastSends_all_notif _ _ o2 k2 a ha
    | some t =>
      cases hok : o2 k2 <;>
        simp [hlow, hfind, hok, Event.isNotif, List.filter_append] <;>
        (intro a ha; simpa [Event.isNotif] using broadcastSends_all_notif _ _ o2 (k2 + 1) a ha)

/-- Each entity contributes exactly one report header, whatever its alert
state, secrets and send outcomes. -/
theorem processEntity_report_count (n : String) (c : ChainConfig) (th : ℚ) (d : ℕ)
    (secrets : Option SecretsConfig) (oracle : ℕ → Bool) (k pid bal cr : ℕ) :
    paraReportCount (processEntity n c th d secrets oracle k pid bal cr).1 = 1 := by
  unfold processEntity paraReportCount
  cases hlow : (computeRunway ⟨bal, d⟩ ⟨cr⟩ c th).isLow
  · simp [hlow, List.filter_append]
  · cases secrets with
    | none => simp [hlow, List.filter_append]
    | some s =>
      cases hfind : findTeamByParaId s (IdVal.num pid) with
      | none => simp [hlow, hfind, List.filter_append, broadcastSends_no_report]
      | some t =>
        cases hok : oracle k <;>
          simp [hlow, hfind, hok, List.filter_append, broadcastSends_no_report]

/-- The dispatch targets of one entity in closed form: nothing unless the
entity is low and secrets are present; otherwise the owner's chat (when a
team matches) followed by every broadcast team's chat in stored order —
independent of the send outcomes and of the counter. -/
theorem processEntity_targets (n : String) (c : ChainConfig) (th : ℚ) (d : ℕ)
    (secrets : Option SecretsConfig) (oracle : ℕ → Bool) (k pid bal cr : ℕ) :
    sendTargets (processEntity n c th d secrets oracle k pid bal cr).1 =
      if (computeRunway ⟨bal, d⟩ ⟨cr⟩ c th).isLow then
        match secrets with
        | none => []
        | some s =>
          (match findTeamByParaId s (IdVal.num pid) with
           | some t => [t.chat_id]
           | none => []) ++
          (s.teams.filter (fun t => t.para_id == 0)).map TeamConfig.chat_id
      else [] := by
  unfold processEntity
  cases hlow : (computeRunway ⟨bal, d⟩ ⟨cr⟩ c th).isLow
  · simp [hlow, sendTargets]
  · cases secrets with
    | none => simp [hlow, sendTargets]
    | some s =>
      cases hfind : findTeamByParaId s (IdVal.num pid) with
      | none =>
        simp [hlow, hfind, sendTargets, List.filterMap_append]
        simpa [sendTargets] using broadcastSends_targets _ _ oracle k
      | some t =>
        cases hok : oracle k <;>
          simp [hlow, hfind, hok, sendTargets, List.filterMap_append] <;>
          simpa [sendTargets] using broadcastSends_targets _ _ oracle (k + 1)

/-- On a nonempty registered list the handler runs the loop and then
prints the closing `Done` line. -/
theorem checkCredits_ne_empty (n : String) (c : ChainConfig) (th : ℚ) (d : ℕ)
    (secrets : Option SecretsConfig) (oracle : ℕ → Bool) (entities : List (ℕ × ℕ × ℕ))
    (he : entities.isEmpty = false) :
    checkCredits n c th d secrets oracle entities
      = runEntities n c th d secrets oracle entities 0 ++ [Event.doneLine] := by
  simp [checkCredits, he]

/-- Dispatch targets distribute over appended output blocks. -/
theorem sendTargets_append (l1 l2 : List Event) :
    sendTargets (l1 ++ l2) = sendTargets l1 ++ sendTargets l2 := by
  simp [sendTargets, List.filterMap_append]

/-- Report-header counts add over appended output blocks. -/
theorem paraReportCount_append (l1 l2 : List Event) :
    paraReportCount (l1 ++ l2) = paraReportCount l1 + paraReportCount l2 := by
  simp [paraReportCount, List.filter_append]

/-- A run emits one report header per entity. -/
theorem runEntities_report_count (n : String) (c : ChainConfig) (th : ℚ) (d : ℕ)
    (secrets : Option SecretsConfig) (oracle : ℕ → Bool) :
    ∀ entities k, paraReportCount (runEntities n c th d secrets oracle entities k)
      = entities.length := by
  intro entities
  induction entities with
  | nil => intro k; simp [runEntities, paraReportCount]
  | cons e rest ih =>
    intro k
    obtain ⟨pid, bal, cr⟩ := e
    have h1 := processEntity_report_count n c th d secrets oracle k pid bal cr
    have h2 := ih (processEntity n c th d secrets oracle k pid bal cr).2
    simp only [runEntities, paraReportCount, List.filter_append, List.length_append,
      List.length_cons] at h1 h2 ⊢
    rw [h1, h2]
    omega

/-- The sequence of dispatch targets of a run does not depend on the send
outcomes: a failed send never suppresses a later recipient. -/
theorem runEntities_targets_indep (n : String) (c : ChainConfig) (th : ℚ) (d : ℕ)
    (secrets : Option SecretsConfig) (o1 o2 : ℕ → Bool) :
    ∀ entities k1 k2, sendTargets (runEntities n c th d secrets o1 entities k1)
      = sendTargets (runEntities n c th d secrets o2 entities k2) := by
  intro entities
  induction entities with
  | nil => intro k1 k2; rfl
  | cons e rest ih =>
    intro k1 k2
    obtain ⟨pid, bal, cr⟩ := e
    simp only [runEntities, sendTargets, List.filterMap_append]
    have h1 : sendTargets (processEntity n c th d secrets o1 k1 pid bal cr).1
        = sendTargets (processEntity n c th d secrets o2 k2 pid bal cr).1 := by
      rw [processEntity_targets, processEntity_targets]
    have h2 := ih (processEntity n c th d secrets o1 k1 pid bal cr).2
      (processEntity n c th d secrets o2 k2 pid bal cr).2
    simp only [sendTargets] at h1 h2
    rw [h1, h2]

/-- No notification event at all appears in a report-only run. -/
theorem runEntities_none_no_notif (n : String) (c : ChainConfig) (th : ℚ) (d : ℕ)
    (oracle : ℕ → Bool) :
    ∀ entities k,
      (runEntities n c th d none oracle entities k).filter (fun e => e.isNotif) = [] := by
  intro entities
  induction entities with
  | nil => intro k; simp [runEntities, Event.isNotif]
  | cons e rest ih =>
    intro k
    obtain ⟨pid, bal, cr⟩ := e
    have h1 := processEntity_none_notif n c th d oracle k pid bal cr
    simp only [runEntities, List.filter_append, h1, ih, List.nil_append]

/-- A report-only run is exactly the notification-free part of the full
run. -/
theorem runEntities_none_filter (n : String) (c : ChainConfig) (th : ℚ) (d : ℕ)
    (o1 o2 : ℕ → Bool) (s : SecretsConfig) :
    ∀ entities k1 k2, runEntities n c th d none o1 entities k1
      = (runEntities n c th d (some s) o2 entities k2).filter (fun e => !e.isNotif) := by
  intro entities
  induction entities with
  | nil => intro k1 k2; simp [runEntities, Event.isNotif]
  | cons e rest ih =>
    intro k1 k2
    obtain ⟨pid, bal, cr⟩ := e
    simp only [runEntities, List.filter_append]
    rw [processEntity_none_filter n c th d o1 o2 k1 k2 pid bal cr s]
    congr 1
    exact ih _ _

/-- A report-only run dispatches to nobody. -/
theorem runEntities_none_targets (n : String) (c : ChainConfig) (th : ℚ) (d : ℕ)
    (oracle : ℕ → Bool) :
    ∀ entities k, sendTargets (runEntities n c th d none oracle entities k) = [] := by
  intro entities
  induction entities with
  | nil => intro k; rfl
  | cons e rest ih =>
    intro k
    obtain ⟨pid, bal, cr⟩ := e
    simp only [runEntities, sendTargets, List.filterMap_append]
    have h1 : sendTargets (processEntity n c th d none oracle k pid bal cr).1 = [] := by
      rw [processEntity_targets]
      cases (computeRunway ⟨bal, d⟩ ⟨cr⟩ c th).isLow <;> simp
    have h2 := ih (processEntity n c th d none oracle k pid bal cr).2
    simp only [sendTargets] at h1 h2
    rw [h1, h2]
    rfl

/-- C9: when secrets are absent, not a single notification event — in
particular no dispatch call — occurs, yet the run's output is exactly the
notification-free part of what it would be with secrets present: every
per-entity balance and runway report line still appears, and the run
completes. -/
theorem checkCredits_reportOnly (n : String) (c : ChainConfig) (th : ℚ) (d : ℕ)
    (oracle : ℕ → Bool) (s : SecretsConfig) (entities : List (ℕ × ℕ × ℕ)) :
    (checkCredits n c th d none oracle entities).filter (fun e => e.isNotif) = [] ∧
    sendTargets (checkCredits n c th d none oracle entities) = [] ∧
    checkCredits n c th d none oracle entities
      = (checkCredits n c th d (some s) oracle entities).filter (fun e => !e.isNotif) := by
  cases he : entities.isEmpty
  case true =>
    have hE : entities = [] := by
      cases entities with
      | nil => rfl
      | cons a l => simp at he
    subst hE
    refine ⟨?_, ?_, ?_⟩ <;> simp [checkCredits, Event.isNotif, sendTargets]
  case false =>
    rw [checkCredits_ne_empty n c th d none oracle entities he,
      checkCredits_ne_empty n c th d (some s) oracle entities he]
    refine ⟨?_, ?_, ?_⟩
    · rw [List.filter_append, runEntities_none_no_notif n c th d oracle entities 0]
      simp [Event.isNotif]
    · rw [sendTargets_append, runEntities_none_targets n c th d oracle entities 0]
      simp [sendTargets]
    · rw [List.filter_append,
        runEntities_none_filter n c th d oracle oracle s entities 0 0]
      congr 1

/-- C4 (amended): the run emits exactly one report header per entity
whatever the alert states and send outcomes; whenever at least one entity
is registered it ends with the fixed completion marker (which carries no
count), while an empty registered list ends the run early with the
no-chains notice; and the full sequence of dispatch targets — broadcast
recipients of an entity and all later entities included — is the same
whatever sends fail, so no dispatch failure ever suppresses a later
dispatch or a later entity. -/
theorem checkCredits_loop_spec (n : String) (c : ChainConfig) (th : ℚ) (d : ℕ)
    (secrets : Option SecretsConfig) (o1 o2 : ℕ → Bool) (entities : List (ℕ × ℕ × ℕ)) :
    paraReportCount (checkCredits n c th d secrets o1 entities) = entities.length ∧
    (entities ≠ [] →
      (checkCredits n c th d secrets o1 entities).getLast? = some Event.doneLine) ∧
    checkCredits n c th d secrets o1 [] = [Event.noChainsLine] ∧
    sendTargets (checkCredits n c th d secrets o1 entities)
      = sendTargets (checkCredits n c th d secrets o2 entities) := by
  refine ⟨?_, ?_, rfl, ?_⟩
  · cases he : entities.isEmpty
    case false =>
      rw [checkCredits_ne_empty n c th d secrets o1 entities he, paraReportCount_append,
        runEntities_report_count n c th d secrets o1 entities 0]
      simp [paraReportCount]
    case true =>
      have hE : entities = [] := by
        cases entities with
        | nil => rfl
        | cons a l => simp at he
      subst hE
      simp [checkCredits, paraReportCount]
  · intro hne
    have he : entities.isEmpty = false := by
      cases entities with
      | nil => exact absurd rfl hne
      | cons a l => rfl
    rw [checkCredits_ne_empty n c th d secrets o1 entities he]
    exact List.getLast?_concat _
  · cases he : entities.isEmpty
    case false =>
      rw [checkCredits_ne_empty n c th d secrets o1 entities he,
        checkCredits_ne_empty n c th d secrets o2 entities he,
        sendTargets_append, sendTargets_append,
        runEntities_targets_indep n c th d secrets o1 o2 entities 0 0]
    case true =>
      have hE : entities = [] := by
        cases entities with
        | nil => rfl
        | cons a l => simp at he
      subst hE
      rfl

/-- C4 witness: a one-entity run ends with the completion marker. -/
theorem checkCredits_loop_spec_witness :
    (checkCredits "tanssi" ⟨1, 1, 0, 7⟩ 7 12 none (fun _ => true) [(42, 0, 0)]).getLast?
      = some Event.doneLine :=
  (checkCredits_loop_spec "tanssi" ⟨1, 1, 0, 7⟩ 7 12 none (fun _ => true) (fun _ => true)
    [(42, 0, 0)]).2.1 (by simp)

/-- C4 counterexample: two runs whose numbers of below-threshold entities
differ (one and zero) end in identical output, so the run's final output
is no summary of how many entities were below threshold. -/
theorem summary_count_counterexample :
    (checkCredits "tanssi" ⟨1, 1, 0, 7⟩ 7 12 none (fun _ => true) [(42, 0, 0)]).getLast?
      = (checkCredits "tanssi" ⟨1, 1, 0, 7⟩ 7 12 none (fun _ => true)
          [(42, 0, 1000000)]).getLast? ∧
    lowCount (checkCredits "tanssi" ⟨1, 1, 0, 7⟩ 7 12 none (fun _ => true) [(42, 0, 0)])
      ≠ lowCount (checkCredits "tanssi" ⟨1, 1, 0, 7⟩ 7 12 none (fun _ => true)
          [(42, 0, 1000000)]) := by
  constructor <;>
    norm_num [checkCredits, runEntities, processEntity, computeRunway, balanceInTokens,
      dailyCost, lowCount, JsNum.divQ, JsNum.add, JsNum.ltQ]

/-- Any broadcast dispatch event of the fan-out carries the one composed
broadcast message. -/
theorem broadcastSends_msg_mem (msg m : BroadcastMsg) (teams : List TeamConfig)
    (oracle : ℕ → Bool) (cid : String) (ok : Bool) :
    ∀ k, Event.sendCall cid (Message.broadcast m) ok ∈ (broadcastSends msg teams oracle k).1 →
      m = msg := by
  induction teams with
  | nil => intro k h; simp [broadcastSends] at h
  | cons t rest ih =>
    intro k h
    simp only [broadcastSends, List.mem_cons] at h
    rcases h with h | h | h
    · simp only [Event.sendCall.injEq, Message.broadcast.injEq] at h
      exact h.2.1
    · cases hok : oracle k <;> rw [hok] at h <;> simp at h
    · exact ih (k + 1) h

/-- C7: every broadcast message dispatched for a low entity names the
owning team exactly when one was found, carries the no-team qualifier iff
no team was configured for the entity id, and carries the failed-notify
qualifier naming the owner iff a team was found and the owner dispatch
(the entity's first send, outcome `oracle k`) failed. -/
theorem broadcastMessage_spec (n : String) (c : ChainConfig) (th : ℚ) (d : ℕ)
    (s : SecretsConfig) (oracle : ℕ → Bool) (k pid bal cr : ℕ)
    (m : BroadcastMsg) (cid : String) (ok : Bool)
    (hmem : Event.sendCall cid (Message.broadcast m) ok
      ∈ (processEntity n c th d (some s) oracle k pid bal cr).1) :
    m.ownerName = (findTeamByParaId s (IdVal.num pid)).map TeamConfig.name ∧
    (m.qualifier = .noTeam ↔ findTeamByParaId s (IdVal.num pid) = none) ∧
    (∀ name, m.qualifier = .failedNotify name ↔
      ∃ t, findTeamByParaId s (IdVal.num pid) = some t ∧ name = t.name ∧
        oracle k = false) := by
  cases hlow : (computeRunway ⟨bal, d⟩ ⟨cr⟩ c th).isLow with
  | false =>
    simp [processEntity, hlow] at hmem
  | true =>
    cases hfind : findTeamByParaId s (IdVal.num pid) with
    | none =>
      simp only [processEntity, hlow, hfind, if_true, List.append_assoc, List.mem_append,
        List.mem_cons] at hmem
      simp at hmem
      have hm := broadcastSends_msg_mem _ m _ oracle cid ok k hmem
      subst hm
      simp [composeBroadcast, hfind]
    | some t =>
      cases hok : oracle k with
      | true =>
        simp only [processEntity, hlow, hfind, hok] at hmem
        simp at hmem
        have hm := broadcastSends_msg_mem _ m _ oracle cid ok (k + 1) hmem
        subst hm
        simp [composeBroadcast, hfind, hok]
      | false =>
        simp only [processEntity, hlow, hfind, hok] at hmem
        simp at hmem
        have hm := broadcastSends_msg_mem _ m _ oracle cid ok (k + 1) hmem
        subst hm
        simp [composeBroadcast, hfind, hok]
        intro name
        constructor
        · intro h; exact h.symm
        · intro h; exact h.symm

/-- C7 witness: owner found but its dispatch fails — the broadcast
message names the owner. -/
theorem broadcastMessage_spec_witness :
    (⟨"net", 42, some "TeamA", JsNum.fin 0, Qualifier.failedNotify "TeamA"⟩
        : BroadcastMsg).ownerName
      = (findTeamByParaId ⟨"tok", [⟨"TeamA", 42, "chatA"⟩, ⟨"Ops", 0, "chatOps"⟩]⟩
          (IdVal.num 42)).map TeamConfig.name :=
  (broadcastMessage_spec "net" ⟨1, 1, 0, 7⟩ 7 12
    ⟨"tok", [⟨"TeamA", 42, "chatA"⟩, ⟨"Ops", 0, "chatOps"⟩]⟩ (fun _ => false) 0 42 0 0
    ⟨"net", 42, some "TeamA", JsNum.fin 0, Qualifier.failedNotify "TeamA"⟩ "chatOps" false
    (by norm_num [processEntity, computeRunway, balanceInTokens, dailyCost, JsNum.divQ,
      JsNum.add, JsNum.ltQ, findTeamByParaId, toNumber, numEq, composeBroadcast,
      broadcastSends, List.find?])).1
